import Mathlib

/-!
Verification of the traffic-forecast pipeline (`frontend.py`).

Shallow embedding conventions:
* Numeric values are modelled as `ℚ` (the source computes with real numbers;
  the only float-specific behaviour any claim touches is division by zero,
  modelled explicitly with `Except`).
* A possibly-missing value (pandas `NaN`) is `Option ℚ`; the pandas `mean`
  with its default `skipna=True` averages the present values and is `none`
  (NaN) when no value is present.
* Timestamps are day numbers `ℤ`; `normalize()` on a day-granular timestamp
  is the identity, so it is not represented separately.
* The Holt-Winters fit from the external statsmodels library is an
  uninterpreted point-forecast function `fit : ℕ → ℚ`; the data-length check
  it performs is modelled from the spec (see `holtWintersCheck`).
-/

/-- Ordering of uploaded rows by their timestamp (the `time_sec` index);
`sort_index()` sorts by this key. -/
def rowLE (a b : ℤ × Option ℚ) : Prop := a.1 ≤ b.1

instance : DecidableRel rowLE := fun a b => inferInstanceAs (Decidable (a.1 ≤ b.1))

instance : IsTotal (ℤ × Option ℚ) rowLE := ⟨fun a b => le_total a.1 b.1⟩

instance : IsTrans (ℤ × Option ℚ) rowLE := ⟨fun _ _ _ h h2 => le_trans h h2⟩

/-- Series ingestion (frontend.py lines 29-32): the uploaded rows are indexed
by timestamp and sorted by that index (`sort_index()`). Nothing else is done:
in particular no de-duplication of timestamps. -/
def ingest (rows : List (ℤ × Option ℚ)) : List (ℤ × Option ℚ) :=
  List.insertionSort rowLE rows

/-- pandas `Series.mean()` with default `skipna=True`: the mean of the
present (non-NaN) values, `none` (NaN) when there is no present value. -/
def seriesMean (l : List (Option ℚ)) : Option ℚ :=
  let xs := l.filterMap id
  if xs = [] then none else some (xs.sum / xs.length)

/-- `series.head(14).mean()` (frontend.py line 46). -/
def start_mean (vals : List (Option ℚ)) : Option ℚ :=
  seriesMean (vals.take 14)

/-- `series.tail(14).mean()` (frontend.py line 47): the mean of the last
`min 14 n` observations (`List.drop (n - 14)` keeps exactly those). -/
def end_mean (vals : List (Option ℚ)) : Option ℚ :=
  seriesMean (vals.drop (vals.length - 14))

/-- Customer sensitivity estimator (frontend.py lines 49-53): start from 0;
when both window means are defined, set the coefficient to
`(start_mean - end_mean) / HIST_CUSTOMER_DROP`, or 0 when the denominator
is 0. -/
def traffic_per_customer (vals : List (Option ℚ)) (histCustomerChange : ℚ) : ℚ :=
  match start_mean vals, end_mean vals with
  | some sm, some em =>
      if histCustomerChange ≠ 0 then (sm - em) / histCustomerChange else 0
  | _, _ => 0

/-- Reference definition taken from the words of the spec (§4.2): head is the
mean of the first `min 14 n` observations, tail the mean of the last
`min 14 n`; the coefficient is 0 when the historical change is 0 or either
mean is undefined, and `(head - tail) / change` otherwise. -/
def sensitivitySpec (vals : List (Option ℚ)) (histCustomerChange : ℚ) : ℚ :=
  if histCustomerChange = 0 then 0
  else
    match seriesMean (vals.take (min 14 vals.length)),
          seriesMean (vals.drop (vals.length - min 14 vals.length)) with
    | some hd, some tl => (hd - tl) / histCustomerChange
    | _, _ => 0

/-- Errors a pipeline run can raise. `insufficientData` stands for the
ValueError the external Holt-Winters fit raises on a too-short series;
`zeroDivision` for Python's ZeroDivisionError at `FORECAST_CUSTOMER_DROP /
FORECAST_DAYS`; `emptyIndex` for the failure of `pd.date_range` when the
series is empty and its index has no maximum. -/
inductive PipelineError where
  | insufficientData
  | zeroDivision
  | emptyIndex
deriving DecidableEq

deriving instance DecidableEq for Except

/-- Elementwise translation of frontend.py lines 59-62: position `k + j` of
the output (the source starts with `k = 1`, mirroring `np.arange(1,
FORECAST_DAYS + 1)`) holds `max 0 (v - (index * daily_change) *
traffic_per_customer)`. -/
def adjustSeq (daily tpc : ℚ) : ℕ → List ℚ → List ℚ
  | _, [] => []
  | k, v :: rest => max 0 (v - ((k : ℚ) * daily) * tpc) :: adjustSeq daily tpc (k + 1) rest

/-- Forecast adjuster (frontend.py lines 56-62): pass the raw forecast
through unchanged unless both the expected customer change and the
sensitivity coefficient are nonzero; in that branch `FORECAST_CUSTOMER_DROP /
FORECAST_DAYS` raises ZeroDivisionError when the horizon is 0, and otherwise
each raw value is reduced by the cumulative adjustment and clipped at 0. -/
def adjustForecast (raw : List ℚ) (fcChange tpc : ℚ) (days : ℕ) :
    Except PipelineError (List ℚ) :=
  if fcChange ≠ 0 ∧ tpc ≠ 0 then
    if days = 0 then .error .zeroDivision
    else .ok (adjustSeq (fcChange / (days : ℚ)) tpc 1 raw)
  else .ok raw

/-- The output handed to the rendering/export collaborators: the historical
rows and the forecast rows (date, raw forecast, adjusted forecast). -/
structure PipelineOutput where
  histRows : List (ℤ × Option ℚ)
  forecastRows : List (ℤ × ℚ × ℚ)
deriving DecidableEq

/-- Modelled from the spec: the external statsmodels Holt-Winters fit
(frontend.py lines 37-38) is not part of this repository; per §4.1/§7 it
requires at least `2 × seasonal_periods` observations and signals
`InsufficientDataError` (a ValueError surfaced to the user) otherwise. -/
def holtWintersCheck (n seasonalPeriods : ℕ) : Bool :=
  decide (n < 2 * seasonalPeriods)

/-- The whole pipeline (frontend.py lines 27-66) with the fitted model's
point forecast left uninterpreted as `fit`: ingest and sort the rows, take
the last historical date, fit (checking data sufficiency, modelled from the
spec), forecast `forecastDays` values at contiguous daily dates starting the
day after the last historical date, estimate the sensitivity coefficient,
adjust, and assemble the output table. -/
def runPipeline (rows : List (ℤ × Option ℚ)) (histChange fcChange : ℚ)
    (forecastDays seasonalPeriods : ℕ) (fit : ℕ → ℚ) :
    Except PipelineError PipelineOutput :=
  if holtWintersCheck (ingest rows).length seasonalPeriods then .error .insufficientData
  else
    match ((ingest rows).map Prod.fst).max? with
    | none => .error .emptyIndex
    | some last =>
        match adjustForecast ((List.range forecastDays).map fit) fcChange
            (traffic_per_customer ((ingest rows).map Prod.snd) histChange) forecastDays with
        | .error e => .error e
        | .ok adjusted =>
            .ok ⟨ingest rows,
              ((List.range forecastDays).map (fun i : ℕ => last + 1 + (i : ℤ))).zip
                (((List.range forecastDays).map fit).zip adjusted)⟩

/-- The 60-day linearly increasing demo series of spec §8.7: values
100, 101, ..., 159, one per day. -/
def demoSeries : List (Option ℚ) :=
  [some (100 : ℚ), some 101, some 102, some 103, some 104, some 105, some 106, some 107, some 108, some 109, some 110, some 111, some 112, some 113, some 114, some 115, some 116, some 117, some 118, some 119, some 120, some 121, some 122, some 123, some 124, some 125, some 126, some 127, some 128, some 129, some 130, some 131, some 132, some 133, some 134, some 135, some 136, some 137, some 138, some 139, some 140, some 141, some 142, some 143, some 144, some 145, some 146, some 147, some 148, some 149, some 150, some 151, some 152, some 153, some 154, some 155, some 156, some 157, some 158, some 159]

/-- C2: the customer sensitivity estimator equals the reference definition
written from the spec: 0 when the historical change is 0 or either window
mean is undefined, otherwise (head mean − tail mean) / historical change. -/
theorem C2_sensitivity_matches_spec (vals : List (Option ℚ)) (h : ℚ) :
    traffic_per_customer vals h = sensitivitySpec vals h := by
  have htake : vals.take (min 14 vals.length) = vals.take 14 := by
    rw [List.take_eq_take]
    omega
  have hdrop : vals.length - min 14 vals.length = vals.length - 14 := by omega
  unfold traffic_per_customer sensitivitySpec start_mean end_mean
  rw [htake, hdrop]
  rcases hsm : seriesMean (vals.take 14) with _ | sm <;>
    rcases hem : seriesMean (vals.drop (vals.length - 14)) with _ | em <;>
    by_cases hz : h = 0 <;> simp [hz]

/-- C3: when the adjustment signal is absent (`forecast_customer_change = 0`
or the sensitivity coefficient is 0) the adjuster returns the raw forecast
values unchanged. -/
theorem C3_passthrough_identity (raw : List ℚ) (fcChange tpc : ℚ) (days : ℕ)
    (h : fcChange = 0 ∨ tpc = 0) :
    adjustForecast raw fcChange tpc days = .ok raw := by
  unfold adjustForecast
  rcases h with h | h <;> simp [h]

theorem C3_witness : adjustForecast [(5 : ℚ), 7] 0 3 2 = .ok [(5 : ℚ), 7] :=
  C3_passthrough_identity [(5 : ℚ), 7] 0 3 2 (Or.inl rfl)

theorem adjustSeq_length (daily tpc : ℚ) :
    ∀ (k : ℕ) (raw : List ℚ), (adjustSeq daily tpc k raw).length = raw.length
  | _, [] => rfl
  | k, _ :: rest => by simp [adjustSeq, adjustSeq_length daily tpc (k + 1) rest]

theorem adjustSeq_getD (daily tpc : ℚ) :
    ∀ (raw : List ℚ) (k i : ℕ), i < raw.length →
      (adjustSeq daily tpc k raw).getD i 0 =
        max 0 (raw.getD i 0 - (((k + i : ℕ) : ℚ) * daily) * tpc)
  | [], _, _, h => absurd h (by simp)
  | v :: rest, k, 0, _ => by simp [adjustSeq]
  | v :: rest, k, i + 1, h => by
      have ih := adjustSeq_getD daily tpc rest (k + 1) i (by simpa using h)
      simpa [adjustSeq, Nat.add_assoc, Nat.add_comm 1 i] using ih

theorem adjustSeq_nonneg (daily tpc : ℚ) :
    ∀ (k : ℕ) (raw : List ℚ), ∀ y ∈ adjustSeq daily tpc k raw, 0 ≤ y
  | _, [], _, hy => absurd hy (by simp [adjustSeq])
  | k, v :: rest, y, hy => by
      rcases (by simpa [adjustSeq] using hy :
          y = max 0 (v - ((k : ℚ) * daily) * tpc) ∨ y ∈ adjustSeq daily tpc (k + 1) rest) with
        h | h
      · rw [h]; exact le_max_left 0 _
      · exact adjustSeq_nonneg daily tpc (k + 1) rest y h

/-- C4: in the active branch (nonzero customer change and coefficient,
nonzero horizon) the adjuster produces one value per raw value, and the
value at 1-based index `i` is
`max 0 (raw_i - i * (forecast_customer_change / horizon) * coefficient)`. -/
theorem C4_adjustment_formula (raw : List ℚ) (fcChange tpc : ℚ) (days : ℕ)
    (hfc : fcChange ≠ 0) (ht : tpc ≠ 0) (hd : days ≠ 0) :
    ∃ l, adjustForecast raw fcChange tpc days = .ok l ∧ l.length = raw.length ∧
      ∀ i, i < raw.length →
        l.getD i 0 =
          max 0 (raw.getD i 0 - ((i : ℚ) + 1) * (fcChange / (days : ℚ)) * tpc) := by
  refine ⟨adjustSeq (fcChange / (days : ℚ)) tpc 1 raw, ?_, adjustSeq_length _ _ _ _, ?_⟩
  · unfold adjustForecast
    simp [hfc, ht, hd]
  · intro i hi
    rw [adjustSeq_getD _ _ raw 1 i hi]
    congr 1
    push_cast
    ring

theorem C4_witness : adjustForecast [(4 : ℚ)] 2 3 1 = .ok [0] := by
  obtain ⟨l, h1, h2, h3⟩ :=
    C4_adjustment_formula [(4 : ℚ)] 2 3 1 (by norm_num) (by norm_num) (by norm_num)
  have h0 := h3 0 (by norm_num)
  have hl : l = [0] := by
    rcases l with _ | ⟨a, t⟩
    · simp at h2
    · rcases t with _ | ⟨b, t2⟩
      · simp only [List.getD_cons_zero] at h0
        norm_num [max_def] at h0
        rw [h0]
      · simp at h2
  rw [← hl]
  exact h1

/-- C1 counterexample: a complete pipeline run (customer change 0, so the
pass-through branch is taken) whose fitted model forecasts the value -1; the
adjusted value of the single forecast row is -1, which is not ≥ 0. -/
theorem C1_counterexample :
    runPipeline [((0 : ℤ), some (10 : ℚ)), (1, some 0)] 1 0 1 1 (fun _ => -1) =
      .ok ⟨[((0 : ℤ), some (10 : ℚ)), (1, some 0)], [((2 : ℤ), (-1 : ℚ), (-1 : ℚ))]⟩ ∧
    ¬ (0 ≤ (-1 : ℚ)) := by
  constructor
  · decide
  · norm_num

/-- C1 amended: every adjusted value is ≥ 0 whenever the adjustment branch
runs (nonzero customer change and nonzero coefficient, where clipping
applies); in the pass-through branch the adjusted values equal the raw
Holt-Winters values, so they are ≥ 0 only when those are. -/
theorem C1_adjusted_nonneg (raw l : List ℚ) (fcChange tpc : ℚ) (days : ℕ)
    (hrun : adjustForecast raw fcChange tpc days = .ok l)
    (h : (fcChange ≠ 0 ∧ tpc ≠ 0) ∨ ∀ x ∈ raw, 0 ≤ x) :
    ∀ y ∈ l, 0 ≤ y := by
  unfold adjustForecast at hrun
  by_cases hb : fcChange ≠ 0 ∧ tpc ≠ 0
  · rw [if_pos hb] at hrun
    by_cases hd : days = 0
    · rw [if_pos hd] at hrun
      exact absurd hrun (by simp)
    · rw [if_neg hd] at hrun
      have hl : adjustSeq (fcChange / (days : ℚ)) tpc 1 raw = l := by
        simpa using hrun
      rw [← hl]
      exact adjustSeq_nonneg _ _ _ _
  · rw [if_neg hb] at hrun
    have hl : raw = l := by simpa using hrun
    rcases h with h | h
    · exact absurd h hb
    · rw [← hl]
      exact h

theorem C1_witness : (0 : ℚ) ≤ 2 :=
  C1_adjusted_nonneg [3] [2] 1 1 1 (by norm_num [adjustForecast, adjustSeq, max_def])
    (Or.inl ⟨by norm_num, by norm_num⟩) 2 (by simp)

/-- The cumulative adjustment term of frontend.py lines 58-60 at 1-based
period index `i`: `(i * daily_change) * traffic_per_customer` where
`daily_change = FORECAST_CUSTOMER_DROP / FORECAST_DAYS`. -/
def adjustmentTerm (fcChange tpc : ℚ) (days : ℕ) (i : ℕ) : ℚ :=
  ((i : ℚ) * (fcChange / (days : ℚ))) * tpc

/-- C7 counterexample: with positive coefficient 1 and positive customer
change 1 over a 1-day horizon, the raw value -1 is adjusted to
max 0 (-1 - 1) = 0, and 0 ≤ -1 fails: clipping can raise the adjusted value
above a negative raw value. -/
theorem C7_counterexample :
    adjustForecast [(-1 : ℚ)] 1 1 1 = .ok [0] ∧ ¬ ((0 : ℚ) ≤ -1) := by
  constructor
  · norm_num [adjustForecast, adjustSeq, max_def]
  · norm_num

/-- C7 amended: with positive coefficient and positive customer change, the
cumulative adjustment term is non-decreasing in the period index, and every
period whose raw value is ≥ 0 has adjusted value ≤ raw value (for a negative
raw value clipping can exceed it, see the counterexample). -/
theorem C7_monotone_ramp (raw l : List ℚ) (fcChange tpc : ℚ) (days : ℕ)
    (hfc : 0 < fcChange) (ht : 0 < tpc)
    (hrun : adjustForecast raw fcChange tpc days = .ok l) :
    (∀ i j, i ≤ j → adjustmentTerm fcChange tpc days i ≤ adjustmentTerm fcChange tpc days j) ∧
    ∀ i, i < raw.length → 0 ≤ raw.getD i 0 → l.getD i 0 ≤ raw.getD i 0 := by
  have hdaily : 0 ≤ fcChange / (days : ℚ) :=
    div_nonneg hfc.le (by positivity)
  constructor
  · intro i j hij
    unfold adjustmentTerm
    have : ((i : ℚ)) ≤ (j : ℚ) := by exact_mod_cast hij
    exact mul_le_mul_of_nonneg_right (mul_le_mul_of_nonneg_right this hdaily) ht.le
  · intro i hi hr
    unfold adjustForecast at hrun
    rw [if_pos ⟨hfc.ne.symm, ht.ne.symm⟩] at hrun
    by_cases hd : days = 0
    · rw [if_pos hd] at hrun
      exact absurd hrun (by simp)
    · rw [if_neg hd] at hrun
      have hl : adjustSeq (fcChange / (days : ℚ)) tpc 1 raw = l := by
        simpa using hrun
      rw [← hl, adjustSeq_getD _ _ raw 1 i hi]
      have hterm : 0 ≤ (((1 + i : ℕ) : ℚ) * (fcChange / (days : ℚ))) * tpc := by
        apply mul_nonneg (mul_nonneg _ hdaily) ht.le
        positivity
      exact max_le hr (by linarith)

theorem C7_witness :
    adjustmentTerm 1 1 1 1 ≤ adjustmentTerm 1 1 1 2 ∧
    ([(2 : ℚ)]).getD 0 0 ≤ ([(3 : ℚ)]).getD 0 0 := by
  obtain ⟨hmono, hle⟩ :=
    C7_monotone_ramp [3] [2] 1 1 1 (by norm_num) (by norm_num)
      (by norm_num [adjustForecast, adjustSeq, max_def])
  exact ⟨hmono 1 2 (by norm_num), hle 0 (by norm_num) (by norm_num)⟩

/-- When the adjuster succeeds it returns one adjusted value per raw value
(pass-through returns the raw list itself; the active branch is elementwise). -/
theorem adjustForecast_ok_length (raw l : List ℚ) (fcChange tpc : ℚ) (days : ℕ)
    (h : adjustForecast raw fcChange tpc days = .ok l) : l.length = raw.length := by
  unfold adjustForecast at h
  by_cases hb : fcChange ≠ 0 ∧ tpc ≠ 0
  · rw [if_pos hb] at h
    by_cases hd : days = 0
    · rw [if_pos hd] at h
      exact absurd h (by simp)
    · rw [if_neg hd] at h
      have hl : adjustSeq (fcChange / (days : ℚ)) tpc 1 raw = l := by simpa using h
      rw [← hl, adjustSeq_length]
  · rw [if_neg hb] at h
    have hl : raw = l := by simpa using h
    rw [← hl]

/-- C5: a series shorter than `2 × seasonal_periods` makes the whole run
stop with `InsufficientDataError` before any forecast: the pipeline's result
is that error and no output table is produced. -/
theorem C5_insufficient_data (rows : List (ℤ × Option ℚ)) (histChange fcChange : ℚ)
    (forecastDays seasonalPeriods : ℕ) (fit : ℕ → ℚ)
    (h : rows.length < 2 * seasonalPeriods) :
    runPipeline rows histChange fcChange forecastDays seasonalPeriods fit =
      .error .insufficientData := by
  have hlen : (ingest rows).length = rows.length := List.length_insertionSort _ _
  unfold runPipeline
  simp [holtWintersCheck, hlen, h]

theorem C5_witness :
    runPipeline [((0 : ℤ), some (1 : ℚ))] 1 1 1 1 (fun _ => 0) =
      .error .insufficientData :=
  C5_insufficient_data [((0 : ℤ), some (1 : ℚ))] 1 1 1 1 (fun _ => 0) (by norm_num)

/-- C6: any successful run with a positive horizon produces exactly
`forecast_horizon_days` forecast rows (each row carrying one raw and one
adjusted value), whose dates step by exactly one day and start the day after
the last historical date. -/
theorem C6_horizon_contract (rows : List (ℤ × Option ℚ)) (histChange fcChange : ℚ)
    (forecastDays seasonalPeriods : ℕ) (fit : ℕ → ℚ) (out : PipelineOutput)
    (hrun : runPipeline rows histChange fcChange forecastDays seasonalPeriods fit = .ok out)
    (hd : 1 ≤ forecastDays) :
    out.forecastRows.length = forecastDays ∧
    List.Chain' (fun a b => b = a + 1) (out.forecastRows.map (fun r => r.1)) ∧
    ∃ last, ((ingest rows).map Prod.fst).max? = some last ∧
      (out.forecastRows.map (fun r => r.1)).head? = some (last + 1) := by
  unfold runPipeline at hrun
  split at hrun
  next => exact absurd hrun (by simp)
  next hins =>
    split at hrun
    next => exact absurd hrun (by simp)
    next last hmax =>
      split at hrun
      next => exact absurd hrun (by simp)
      next adjusted hadj =>
        have hout : out =
            ⟨ingest rows,
              ((List.range forecastDays).map (fun i : ℕ => last + 1 + (i : ℤ))).zip
                (((List.range forecastDays).map fit).zip adjusted)⟩ := by
          have h2 := hrun
          simp only [Except.ok.injEq] at h2
          exact h2.symm
        have hadjlen : adjusted.length = forecastDays := by
          rw [adjustForecast_ok_length _ _ _ _ _ hadj]
          simp
        have hlens : (((List.range forecastDays).map fit).zip adjusted).length =
            forecastDays := by
          simp [hadjlen]
        have hdates : out.forecastRows.map (fun r => r.1) =
            (List.range forecastDays).map (fun i : ℕ => last + 1 + (i : ℤ)) := by
          rw [hout]
          exact List.map_fst_zip _ _ (by simp [hlens])
        refine ⟨?_, ?_, last, hmax, ?_⟩
        · rw [hout]
          simp [hlens]
        · rw [hdates, List.chain'_iff_get]
          intro i hlt
          simp only [List.get_eq_getElem, List.getElem_map, List.getElem_range]
          push_cast
          ring
        · rw [hdates]
          obtain ⟨k, rfl⟩ : ∃ k, forecastDays = k + 1 := ⟨forecastDays - 1, by omega⟩
          rw [List.range_succ_eq_map]
          simp

theorem C6_witness :
    (PipelineOutput.mk [((0 : ℤ), some (1 : ℚ)), (1, some 2)]
        [((2 : ℤ), (5 : ℚ), (5 : ℚ))]).forecastRows.length = 1 ∧
    ((PipelineOutput.mk [((0 : ℤ), some (1 : ℚ)), (1, some 2)]
        [((2 : ℤ), (5 : ℚ), (5 : ℚ))]).forecastRows.map (fun r => r.1)).head? =
      some 2 := by
  obtain ⟨h1, h2, last, hmax, hhead⟩ :=
    C6_horizon_contract [((0 : ℤ), some (1 : ℚ)), (1, some 2)] 1 0 1 1 (fun _ => 5)
      (PipelineOutput.mk [((0 : ℤ), some (1 : ℚ)), (1, some 2)]
        [((2 : ℤ), (5 : ℚ), (5 : ℚ))]) (by decide) (by norm_num)
  have hlast : last = 1 := by
    have hcomp : ((ingest [((0 : ℤ), some (1 : ℚ)), (1, some 2)]).map Prod.fst).max? =
        some 1 := by decide
    rw [hcomp] at hmax
    exact (Option.some.inj hmax).symm
  rw [hlast] at hhead
  exact ⟨h1, hhead.trans (by norm_num)⟩

/-- C9 counterexample: an upload with two rows at the same timestamp 0; the
series handed on is sorted but still has both rows, so its timestamps are
[0, 0]: not strictly ascending and not duplicate-free. -/
theorem C9_counterexample :
    (ingest [((0 : ℤ), some (1 : ℚ)), (0, some 2)]).map Prod.fst = [0, 0] ∧
    ¬ List.Sorted (· < ·)
      ((ingest [((0 : ℤ), some (1 : ℚ)), (0, some 2)]).map Prod.fst) := by
  have h1 : (ingest [((0 : ℤ), some (1 : ℚ)), (0, some 2)]).map Prod.fst = [0, 0] := by
    decide
  refine ⟨h1, ?_⟩
  rw [h1]
  intro hs
  exact absurd (List.rel_of_sorted_cons hs 0 (by simp)) (lt_irrefl 0)

/-- C9 amended: ingestion sorts the uploaded rows ascending by timestamp
(non-strictly) and keeps every row — the result is a permutation of the
upload, so duplicate timestamps are preserved, not removed; strict ascent
holds only when the upload had no duplicate timestamps. -/
theorem C9_sorted_preserves_rows (rows : List (ℤ × Option ℚ)) :
    List.Sorted rowLE (ingest rows) ∧ (ingest rows).Perm rows :=
  ⟨List.sorted_insertionSort rowLE rows, List.perm_insertionSort rowLE rows⟩

/-- C10: the division `FORECAST_CUSTOMER_DROP / FORECAST_DAYS` is unguarded:
with a horizon of at least 1 the adjuster always succeeds (the
division-by-zero branch is unreachable), while horizon 0 with nonzero
customer change and nonzero coefficient hits the division by zero. -/
theorem C10_division_guard (raw : List ℚ) (fcChange tpc : ℚ) (days : ℕ) :
    (1 ≤ days → ∃ l, adjustForecast raw fcChange tpc days = .ok l) ∧
    (fcChange ≠ 0 → tpc ≠ 0 →
      adjustForecast raw fcChange tpc 0 = .error .zeroDivision) := by
  constructor
  · intro hd
    unfold adjustForecast
    by_cases hb : fcChange ≠ 0 ∧ tpc ≠ 0
    · rw [if_pos hb, if_neg (by omega)]
      exact ⟨_, rfl⟩
    · rw [if_neg hb]
      exact ⟨raw, rfl⟩
  · intro h1 h2
    unfold adjustForecast
    rw [if_pos ⟨h1, h2⟩, if_pos rfl]

theorem C10_witness :
    adjustForecast [(1 : ℚ)] 1 1 0 = .error .zeroDivision ∧
    adjustForecast [(1 : ℚ)] 1 1 1 = .ok [0] := by
  constructor
  · exact (C10_division_guard [(1 : ℚ)] 1 1 0).2 (by norm_num) (by norm_num)
  · obtain ⟨l, hl⟩ := (C10_division_guard [(1 : ℚ)] 1 1 1).1 (by norm_num)
    norm_num [adjustForecast, adjustSeq, max_def]

/-- When the active branch runs and the per-day change times the coefficient
is negative, the subtracted cumulative term is negative, so every adjusted
value strictly exceeds its raw value (the clip at 0 can only raise further). -/
theorem adjust_increases_of_neg (raw l : List ℚ) (fcChange tpc : ℚ) (days : ℕ)
    (hneg : fcChange / (days : ℚ) * tpc < 0)
    (hfc : fcChange ≠ 0) (ht : tpc ≠ 0) (hd : days ≠ 0)
    (hrun : adjustForecast raw fcChange tpc days = .ok l) :
    ∀ i, i < raw.length → raw.getD i 0 < l.getD i 0 := by
  intro i hi
  unfold adjustForecast at hrun
  rw [if_pos ⟨hfc, ht⟩, if_neg hd] at hrun
  have hl : adjustSeq (fcChange / (days : ℚ)) tpc 1 raw = l := by simpa using hrun
  rw [← hl, adjustSeq_getD _ _ raw 1 i hi]
  have hpos : (0 : ℚ) < ((1 + i : ℕ) : ℚ) := by
    have h1 : (0 : ℕ) < 1 + i := by omega
    exact_mod_cast h1
  have hterm : (((1 + i : ℕ) : ℚ) * (fcChange / (days : ℚ))) * tpc < 0 := by
    calc (((1 + i : ℕ) : ℚ) * (fcChange / (days : ℚ))) * tpc
        = ((1 + i : ℕ) : ℚ) * (fcChange / (days : ℚ) * tpc) := by ring
      _ < 0 := mul_neg_of_pos_of_neg hpos hneg
  calc raw.getD i 0
      < raw.getD i 0 - (((1 + i : ℕ) : ℚ) * (fcChange / (days : ℚ))) * tpc := by linarith
    _ ≤ max 0 (raw.getD i 0 - (((1 + i : ℕ) : ℚ) * (fcChange / (days : ℚ))) * tpc) :=
        le_max_right _ _

/-- C8: on the 60-day series 100..159 with historical customer change
100000, the head mean is 106.5, the tail mean 152.5, and the coefficient is
exactly (106.5 − 152.5)/100000 = −0.00046; with forecast customer change
50000 over a 10-day horizon, every adjusted value strictly exceeds its raw
forecast value. -/
theorem C8_concrete_scenario :
    start_mean demoSeries = some 106.5 ∧
    end_mean demoSeries = some 152.5 ∧
    ((106.5 : ℚ) - 152.5) / 100000 = -0.00046 ∧
    traffic_per_customer demoSeries 100000 = -0.00046 ∧
    ∀ raw l : List ℚ,
      adjustForecast raw 50000 (traffic_per_customer demoSeries 100000) 10 = .ok l →
      ∀ i, i < raw.length → raw.getD i 0 < l.getD i 0 := by
  have hstart : start_mean demoSeries = some (213 / 2) := by
    rw [start_mean]
    rw [(by decide : demoSeries.take 14 = [some (100 : ℚ), some 101, some 102, some 103, some 104, some 105, some 106, some 107, some 108, some 109, some 110, some 111, some 112, some 113])]
    rw [seriesMean]
    rw [(by decide : List.filterMap id [some (100 : ℚ), some 101, some 102, some 103, some 104, some 105, some 106, some 107, some 108, some 109, some 110, some 111, some 112, some 113] = [(100 : ℚ), 101, 102, 103, 104, 105, 106, 107, 108, 109, 110, 111, 112, 113])]
    norm_num
    intro hcontra
    simp at hcontra
  have hend : end_mean demoSeries = some (305 / 2) := by
    rw [end_mean]
    rw [(by decide : demoSeries.drop (demoSeries.length - 14) = [some (146 : ℚ), some 147, some 148, some 149, some 150, some 151, some 152, some 153, some 154, some 155, some 156, some 157, some 158, some 159])]
    rw [seriesMean]
    rw [(by decide : List.filterMap id [some (146 : ℚ), some 147, some 148, some 149, some 150, some 151, some 152, some 153, some 154, some 155, some 156, some 157, some 158, some 159] = [(146 : ℚ), 147, 148, 149, 150, 151, 152, 153, 154, 155, 156, 157, 158, 159])]
    norm_num
    intro hcontra
    simp at hcontra
  have hc2 : traffic_per_customer demoSeries 100000 = -0.00046 := by
    unfold traffic_per_customer
    rw [hstart, hend]
    norm_num
  refine ⟨by rw [hstart]; norm_num, by rw [hend]; norm_num, by norm_num, hc2, ?_⟩
  intro raw l hrun i hi
  rw [hc2] at hrun
  exact adjust_increases_of_neg raw l 50000 (-0.00046) 10 (by norm_num) (by norm_num)
    (by norm_num) (by norm_num) hrun i hi

theorem C8_witness : ([(0 : ℚ)]).getD 0 0 < ([(23 / 10 : ℚ)]).getD 0 0 := by
  refine C8_concrete_scenario.2.2.2.2 [0] [23 / 10] ?_ 0 (by norm_num)
  rw [C8_concrete_scenario.2.2.2.1]
  norm_num [adjustForecast, adjustSeq, max_def]
